import Mathlib

/-!
Verification of the OneShot WPS tool (oneshot.py): a shallow embedding of
the PIN-derivation engine (`WPSpin`), the registration session tracker
(`Data` / `process_wpa_supplicant` / `poll_wpa_supplicant`) and the
scan-result parser (`wifi_scan`), together with theorems settling the
specification claims about them.

Python strings are modelled as Lean `String` (a list of characters, which
matches CPython's code-point view for the inputs these functions receive);
Python integers are `Nat` (they are all non-negative here); Python
exceptions become an explicit error type `PyErr` threaded through
`Except` / `Option` results.
-/

namespace OneShot

/-! ### Python-style primitive operations on strings -/

/-- Errors the embedded Python code can raise. -/
inductive PyErr where
  | indexError      : PyErr  -- list index out of range
  | typeError       : PyErr  -- wrong number of arguments in a call
  | valueError      : PyErr  -- int()/codecs failures (incl. unicode errors)
  | keyError        : PyErr  -- missing dict key
  | assertionFailed : PyErr  -- a failed `assert`
  | wpsException    : PyErr  -- the script's own WPSException
deriving DecidableEq, Repr

/-- `pyPrefix p l`: does `l` start with `p`?  (List version.) -/
def pyPrefix : List Char → List Char → Bool
  | [], _ => true
  | _ :: _, [] => false
  | a :: as, b :: bs => a = b && pyPrefix as bs

/-- Python `pat in s` on the underlying character lists. -/
def hasSub (pat : List Char) : List Char → Bool
  | [] => pat.isEmpty
  | c :: t => pyPrefix pat (c :: t) || hasSub pat t

/-- Python `pat in s` for strings. -/
def pyIn (pat s : String) : Bool := hasSub pat.data s.data

/-- Python `s.startswith(p)`. -/
def pyStarts (s p : String) : Bool := pyPrefix p.data s.data

/-- Splits `cs` at the first occurrence of (non-empty) `sep`, returning the
part before and the part after the separator. -/
def findSep (sep : List Char) : List Char → Option (List Char × List Char)
  | [] => if pyPrefix sep [] then some ([], []) else none
  | c :: t =>
    if pyPrefix sep (c :: t) then some ([], (c :: t).drop sep.length)
    else match findSep sep t with
      | some (p, q) => some (c :: p, q)
      | none => none

/-- Fuel-driven worker for Python `s.split(sep[, maxsplit])`.  The fuel is
always at least `cs.length + 1`, so it never runs out. -/
def pySplitGo (sep : List Char) : Nat → Option Nat → List Char → List (List Char)
  | 0, _, cs => [cs]
  | _ + 1, some 0, cs => [cs]
  | fuel + 1, maxs, cs =>
    match findSep sep cs with
    | none => [cs]
    | some (p, q) =>
      p :: pySplitGo sep fuel (maxs.map (· - 1)) q

/-- Python `s.split(sep)` / `s.split(sep, maxsplit)` (with non-empty `sep`). -/
def pySplit (s sep : String) (maxs : Option Nat := none) : List String :=
  (pySplitGo sep.data (s.data.length + 1) maxs s.data).map String.mk

/-- Python `lst[i]` for a non-negative index: `IndexError` when out of range. -/
def pyIdx {α : Type} (l : List α) (i : Nat) : Except PyErr α :=
  match l.get? i with
  | some a => .ok a
  | none => .error .indexError

/-- Python `str.upper()`.  The values it is applied to here are ASCII
hex dumps and MAC addresses, for which ASCII uppercasing is exact. -/
def pyUpper (s : String) : String := ⟨s.data.map Char.toUpper⟩

/-- Python `s.replace(old, '')` for a single character `old`. -/
def removeChar (c : Char) (s : String) : String := ⟨s.data.filter (· ≠ c)⟩

/-! ### Decimal rendering (`str`, `int`, `zfill`) -/

/-- The big-endian decimal digits of `n` (at least one digit). -/
def natDigits (n : Nat) : List Nat :=
  if h : n < 10 then [n] else natDigits (n / 10) ++ [n % 10]
decreasing_by exact Nat.div_lt_self (by omega) (by omega)

/-- The character of a decimal digit. -/
def decChar (d : Nat) : Char := Char.ofNat (48 + d)

/-- Python `str(n)` for a non-negative integer. -/
def pyStrNat (n : Nat) : String := ⟨(natDigits n).map decChar⟩

/-- Python `s.zfill(w)` (sign-aware left zero-padding). -/
def zfill (s : String) (w : Nat) : String :=
  if w ≤ s.length then s
  else match s.data with
    | c :: cs =>
      if c = '+' ∨ c = '-' then ⟨c :: (List.replicate (w - s.length) '0' ++ cs)⟩
      else ⟨List.replicate (w - s.length) '0' ++ s.data⟩
    | [] => ⟨List.replicate w '0'⟩

/-- The numeric value of a list of decimal digit characters (the value
`int` gives a string of ASCII digits). -/
def decList (cs : List Char) : Nat :=
  cs.foldl (fun a c => 10 * a + (c.toNat - 48)) 0

/-- Hex digit test, as accepted by Python `int(_, 16)`. -/
def isHexDigit (c : Char) : Bool :=
  ('0' ≤ c && c ≤ '9') || ('a' ≤ c && c ≤ 'f') || ('A' ≤ c && c ≤ 'F')

/-- The value of one hex digit. -/
def hexVal (c : Char) : Nat :=
  if '0' ≤ c && c ≤ '9' then c.toNat - 48
  else if 'a' ≤ c && c ≤ 'f' then c.toNat - 87
  else if 'A' ≤ c && c ≤ 'F' then c.toNat - 55
  else 0

/-- The whitespace `int()` strips from both ends of its argument (the
ASCII forms; CPython also strips `\x1c`–`\x1f` and Unicode spaces, which
cannot occur in a MAC string). -/
def pyIntSpace (c : Char) : Bool :=
  c = ' ' || c = '\t' || c = '\n' || c = '\r'
    || c = Char.ofNat 11 || c = Char.ofNat 12

def stripIntSpace (cs : List Char) : List Char :=
  ((cs.dropWhile pyIntSpace).reverse.dropWhile pyIntSpace).reverse

/-- `int()`'s optional sign.  A `-` cannot survive the MAC delimiter
stripping (all `-` are removed), so only `+` is modelled; a surviving `-`
would anyway produce a negative value no MAC string produces. -/
def dropSign (cs : List Char) : List Char :=
  match cs with
  | c :: t => if c = '+' then t else c :: t
  | [] => []

/-- `int(_, 16)`'s optional `0x`/`0X` prefix; one underscore may directly
follow the prefix. -/
def dropHexPrefix (cs : List Char) : List Char :=
  match cs with
  | c0 :: c1 :: t =>
    if c0 = '0' ∧ (c1 = 'x' ∨ c1 = 'X') then
      match t with
      | c2 :: t2 => if c2 = '_' then t2 else c2 :: t2
      | [] => []
    else c0 :: c1 :: t
  | cs => cs

/-- After the first digit: hex digits with single underscores allowed only
between digits. -/
def hexTail : List Char → Bool
  | [] => true
  | c :: t =>
    if c = '_' then
      match t with
      | c2 :: t2 => isHexDigit c2 && hexTail t2
      | [] => false
    else isHexDigit c && hexTail t

/-- A non-empty digit group: a hex digit followed by `hexTail`. -/
def hexBody : List Char → Bool
  | [] => false
  | c :: t => isHexDigit c && hexTail t

def hexValue (cs : List Char) : Nat :=
  (cs.filter (· ≠ '_')).foldl (fun a c => 16 * a + hexVal c) 0

/-- Python `int(s, 16)` as applied to delimiter-stripped MAC strings:
optional surrounding whitespace, an optional `+` sign, an optional
`0x`/`0X` prefix, then hex digits with single underscores between digits
(and optionally one right after the prefix).  CPython's transformation of
non-ASCII decimal digits is not modelled. -/
def intDigits16 (cs : List Char) : List Char :=
  dropHexPrefix (dropSign (stripIntSpace cs))

def int16? (s : String) : Option Nat :=
  if hexBody (intDigits16 s.data) then some (hexValue (intDigits16 s.data))
  else none

/-! ### `WPSpin`: the PIN derivation engine -/

/-- The delimiter stripping shared by `_parseMAC` and `_parseOUI`:
`mac.replace(':', '').replace('-', '').replace('.', '')`. -/
def stripDelims (mac : String) : String :=
  removeChar '.' (removeChar '-' (removeChar ':' mac))

/-- `WPSpin._parseMAC`: strip `:`/`-`/`.` delimiters and parse hex. -/
def parseMAC (mac : String) : Option Nat :=
  int16? (stripDelims mac)

/-- `WPSpin._parseOUI`: strip delimiters, take the first six characters,
parse hex. -/
def parseOUI (mac : String) : Option Nat :=
  int16? ⟨(stripDelims mac).data.take 6⟩

/-- The accumulator loop of `WPSpin.checksum`: each iteration consumes two
decimal digits, weighting the lower one 3 and the next one 1.  (`int(pin /
10)` in the source is exact floor division for the magnitudes involved.) -/
def checksumAccum (pin accum : Nat) : Nat :=
  if h : pin = 0 then accum
  else checksumAccum (pin / 100) (accum + 3 * (pin % 10) + pin / 10 % 10)
decreasing_by exact Nat.div_lt_self (Nat.pos_of_ne_zero h) (by omega)

/-- `WPSpin.checksum`: the WPS check digit of `pin`. -/
def checksum (pin : Nat) : Nat := (10 - checksumAccum pin 0 % 10) % 10

/-- The claimed weighted digit sum: decimal digits weighted 3,1,3,1,…
starting from the least-significant digit.  (Stated from the claim, to be
compared with the source's accumulator loop.) -/
def specSum (n : Nat) : Nat :=
  if h : n = 0 then 0 else 3 * (n % 10) + n / 10 % 10 + specSum (n / 100)
decreasing_by exact Nat.div_lt_self (Nat.pos_of_ne_zero h) (by omega)

/-- `WPSpin.pin24`. -/
def pin24 (mac : Nat) : Nat := mac &&& 0xFFFFFF

/-- `WPSpin.pin28`. -/
def pin28 (mac : Nat) : Nat := mac &&& 0xFFFFFFF

/-- `WPSpin.pin32`. -/
def pin32 (mac : Nat) : Nat := mac % 0x100000000

/-- `WPSpin.pinDLink`.  `int(10e6) = 10000000` and `int(10e5) = 1000000`. -/
def pinDLink (mac : Nat) : Nat :=
  let nic := mac &&& 0xFFFFFF
  let pin := nic ^^^ 0x55AA55
  let pin := pin ^^^ (((pin &&& 0xF) <<< 4) + ((pin &&& 0xF) <<< 8) +
                      ((pin &&& 0xF) <<< 12) + ((pin &&& 0xF) <<< 16) +
                      ((pin &&& 0xF) <<< 20))
  let pin := pin % 10000000
  if pin < 1000000 then pin + ((pin % 9) * 1000000 + 1000000) else pin

/-- `WPSpin.pinDLink1`. -/
def pinDLink1 (mac : Nat) : Nat := pinDLink (mac + 1)

/-- The spec's vendor-A formula, stated in the spec's own terms: the low
nibble of `p` broadcast into nibble positions 1..5 is `(p &&& 0xF) *
0x111110`. -/
def specDLinkPin (m : Nat) : Nat :=
  let nic := m &&& 0xFFFFFF
  let p := nic ^^^ 0x55AA55
  let p := p ^^^ ((p &&& 0xF) * 0x111110)
  let p := p % 10000000
  if p < 1000000 then p + ((p % 9) * 1000000 + 1000000) else p

/-- The big-endian hex digits of `n` (at least one digit), as used by
`hex(mac).split('x')[-1]`. -/
def hexDigitsBE (n : Nat) : List Nat :=
  if h : n < 16 then [n] else hexDigitsBE (n / 16) ++ [n % 16]
decreasing_by exact Nat.div_lt_self (by omega) (by omega)

/-- The six bytes `b[0..5]` taken by `pinASUS`/`pinAirocon` from the
12-character zero-filled hex string of the MAC. -/
def macBytes (mac : Nat) : List Nat :=
  let ds := hexDigitsBE mac
  let p := List.replicate (12 - ds.length) 0 ++ ds
  (List.range 6).map (fun i => 16 * p.getD (2 * i) 0 + p.getD (2 * i + 1) 0)

/-- `WPSpin.pinASUS`: seven decimal digits concatenated; `int` of that
string is the weighted sum of the digits. -/
def pinASUS (mac : Nat) : Nat :=
  let b := macBytes mac
  let s := b.getD 1 0 + b.getD 2 0 + b.getD 3 0 + b.getD 4 0 + b.getD 5 0
  let digit := fun i => (b.getD (i % 6) 0 + b.getD 5 0) % (10 - (i + s) % 7)
  (List.range 7).foldl (fun acc i => 10 * acc + digit i) 0

/-- `WPSpin.pinAirocon`. -/
def pinAirocon (mac : Nat) : Nat :=
  let b := macBytes mac
  (b.getD 0 0 + b.getD 1 0) % 10
    + ((b.getD 5 0 + b.getD 0 0) % 10) * 10
    + ((b.getD 4 0 + b.getD 5 0) % 10) * 100
    + ((b.getD 3 0 + b.getD 4 0) % 10) * 1000
    + ((b.getD 2 0 + b.getD 3 0) % 10) * 10000
    + ((b.getD 1 0 + b.getD 2 0) % 10) * 100000
    + ((b.getD 0 0 + b.getD 1 0) % 10) * 1000000

/-- Algorithm modes (`ALGO_MAC` / `ALGO_EMPTY` / `ALGO_STATIC`). -/
inductive AlgoMode where
  | mac | empty | static
deriving DecidableEq, Repr

/-- The `self.algos` catalog, in insertion order.  The `pinEmpty` generator
returns the empty string in the source; `generate` never uses its numeric
generator (see `generate`), so it is registered here with a dummy `0`. -/
def algos : List (String × AlgoMode × (Nat → Nat)) :=
  [("pin24", .mac, pin24),
   ("pin28", .mac, pin28),
   ("pin32", .mac, pin32),
   ("pinDLink", .mac, pinDLink),
   ("pinDLink1", .mac, pinDLink1),
   ("pinASUS", .mac, pinASUS),
   ("pinAirocon", .mac, pinAirocon),
   ("pinEmpty", .empty, fun _ => 0),
   ("pinCisco", .static, fun _ => 1234567),
   ("pinBrcm1", .static, fun _ => 2017252),
   ("pinBrcm2", .static, fun _ => 4626484),
   ("pinBrcm3", .static, fun _ => 7622990),
   ("pinBrcm4", .static, fun _ => 6232714),
   ("pinBrcm5", .static, fun _ => 1086411),
   ("pinBrcm6", .static, fun _ => 3195719),
   ("pinAirc1", .static, fun _ => 3043203),
   ("pinAirc2", .static, fun _ => 7141225),
   ("pinDSL2740R", .static, fun _ => 6817554),
   ("pinRealtek1", .static, fun _ => 9566146),
   ("pinRealtek2", .static, fun _ => 9571911),
   ("pinRealtek3", .static, fun _ => 4856371),
   ("pinUpvel", .static, fun _ => 2085483),
   ("pinUR814AC", .static, fun _ => 4397768),
   ("pinUR825AC", .static, fun _ => 529417),
   ("pinOnlime", .static, fun _ => 9995604),
   ("pinEdimax", .static, fun _ => 3561153),
   ("pinThomson", .static, fun _ => 6795814),
   ("pinHG532x", .static, fun _ => 3425928),
   ("pinH108L", .static, fun _ => 9422988),
   ("pinONO", .static, fun _ => 9575521)]

/-- Dictionary lookup in the catalog. -/
def findAlgo (algo : String) : Option (AlgoMode × (Nat → Nat)) :=
  match algos.find? (fun e => e.1 = algo) with
  | some (_, mode, gen) => some (mode, gen)
  | none => none

/-- `pin % 10000000` rendered with its check digit and zero-filled to 8
characters — the tail end of `WPSpin.generate`. -/
def formatPin (pin : Nat) : String :=
  zfill (pyStrNat pin ++ pyStrNat (checksum pin)) 8

/-- `WPSpin.generate`.  The source calls the generator and afterwards
returns its (empty-string) result unchanged when `algo == 'pinEmpty'`;
since the generators are pure, checking `pinEmpty` first is equivalent. -/
def generate (algo : String) (mac : String) : Except PyErr String :=
  match parseMAC mac with
  | none => .error .valueError
  | some m =>
    match findAlgo algo with
    | none => .error .wpsException
    | some (_, gen) =>
      if algo = "pinEmpty" then .ok ""
      else .ok (formatPin (gen m % 10000000))

/-! ### Text codecs used by the tool

`codecs.decode(d, 'unicode-escape').encode('latin1').decode('utf-8')` and
`bytes.fromhex(h).decode('utf-8')`.  Unicode code points are carried as
`Nat` between the stages because Python strings can hold lone surrogates
(which `Char` cannot); every failure mode is a `ValueError` (Python's
`UnicodeDecodeError` / `UnicodeEncodeError` are `ValueError` subclasses).
-/

def isOctDigit (c : Char) : Bool := '0' ≤ c && c ≤ '7'

def octVal (c : Char) : Nat := c.toNat - 48

/-- Strict UTF-8 decoding of a byte list (rejecting overlong forms,
surrogates and out-of-range values, as CPython's strict codec does). -/
def utf8Decode : List Nat → Option (List Char)
  | [] => some []
  | b :: rest =>
    if b < 0x80 then (utf8Decode rest).map (Char.ofNat b :: ·)
    else if 0xC2 ≤ b ∧ b ≤ 0xDF then
      match rest with
      | b2 :: rest2 =>
        if 0x80 ≤ b2 ∧ b2 ≤ 0xBF then
          (utf8Decode rest2).map (Char.ofNat ((b - 0xC0) * 64 + (b2 - 0x80)) :: ·)
        else none
      | [] => none
    else if 0xE0 ≤ b ∧ b ≤ 0xEF then
      match rest with
      | b2 :: b3 :: rest2 =>
        if (if b = 0xE0 then 0xA0 else 0x80) ≤ b2 ∧ b2 ≤ (if b = 0xED then 0x9F else 0xBF)
            ∧ 0x80 ≤ b3 ∧ b3 ≤ 0xBF then
          (utf8Decode rest2).map
            (Char.ofNat ((b - 0xE0) * 4096 + (b2 - 0x80) * 64 + (b3 - 0x80)) :: ·)
        else none
      | _ => none
    else if 0xF0 ≤ b ∧ b ≤ 0xF4 then
      match rest with
      | b2 :: b3 :: b4 :: rest2 =>
        if (if b = 0xF0 then 0x90 else 0x80) ≤ b2 ∧ b2 ≤ (if b = 0xF4 then 0x8F else 0xBF)
            ∧ 0x80 ≤ b3 ∧ b3 ≤ 0xBF ∧ 0x80 ≤ b4 ∧ b4 ≤ 0xBF then
          (utf8Decode rest2).map
            (Char.ofNat ((b - 0xF0) * 262144 + (b2 - 0x80) * 4096
              + (b3 - 0x80) * 64 + (b4 - 0x80)) :: ·)
        else none
      | _ => none
    else none

/-- `bytes.fromhex` on an already space-free hex string: fails on an odd
digit count or a non-hex character. -/
def bytesFromHex : List Char → Option (List Nat)
  | [] => some []
  | c1 :: c2 :: rest =>
    if isHexDigit c1 && isHexDigit c2 then
      (bytesFromHex rest).map ((16 * hexVal c1 + hexVal c2) :: ·)
    else none
  | [_] => none

/-- Interpretation of one backslash escape in the `unicode-escape` codec:
given the characters after the backslash, the produced code points and the
remaining input, or `none` on a malformed escape.  `\N{...}` named escapes
are not modelled (the wireless tools never emit them). -/
def escInterp : List Char → Option (List Nat × List Char)
  | [] => none
  | e :: cs =>
    if e = '\n' then some ([], cs)
    else if e = '\\' then some ([92], cs)
    else if e = Char.ofNat 39 then some ([39], cs)
    else if e = '"' then some ([34], cs)
    else if e = 'a' then some ([7], cs)
    else if e = 'b' then some ([8], cs)
    else if e = 'f' then some ([12], cs)
    else if e = 'n' then some ([10], cs)
    else if e = 'r' then some ([13], cs)
    else if e = 't' then some ([9], cs)
    else if e = 'v' then some ([11], cs)
    else if isOctDigit e then
      match cs with
      | c2 :: c3 :: rest =>
        if isOctDigit c2 && isOctDigit c3 then
          some ([octVal e * 64 + octVal c2 * 8 + octVal c3], rest)
        else if isOctDigit c2 then some ([octVal e * 8 + octVal c2], c3 :: rest)
        else some ([octVal e], c2 :: c3 :: rest)
      | [c2] =>
        if isOctDigit c2 then some ([octVal e * 8 + octVal c2], [])
        else some ([octVal e], [c2])
      | [] => some ([octVal e], [])
    else if e = 'x' then
      match cs with
      | h1 :: h2 :: rest =>
        if isHexDigit h1 && isHexDigit h2 then
          some ([16 * hexVal h1 + hexVal h2], rest)
        else none
      | _ => none
    else if e = 'u' then
      match cs with
      | h1 :: h2 :: h3 :: h4 :: rest =>
        if isHexDigit h1 && isHexDigit h2 && isHexDigit h3 && isHexDigit h4 then
          some ([4096 * hexVal h1 + 256 * hexVal h2 + 16 * hexVal h3 + hexVal h4], rest)
        else none
      | _ => none
    else if e = 'U' then
      match cs with
      | h1 :: h2 :: h3 :: h4 :: h5 :: h6 :: h7 :: h8 :: rest =>
        if isHexDigit h1 && isHexDigit h2 && isHexDigit h3 && isHexDigit h4
            && isHexDigit h5 && isHexDigit h6 && isHexDigit h7 && isHexDigit h8 then
          let v := 16 ^ 7 * hexVal h1 + 16 ^ 6 * hexVal h2 + 16 ^ 5 * hexVal h3
            + 16 ^ 4 * hexVal h4 + 4096 * hexVal h5 + 256 * hexVal h6
            + 16 * hexVal h7 + hexVal h8
          if v ≤ 0x10FFFF then some ([v], rest) else none
        else none
      | _ => none
    else if e = 'N' then none
    else some ([92, e.toNat], cs)

/-- Fuel-driven worker for the `unicode-escape` codec (the fuel is the
input length, which always suffices since every step consumes at least one
character). -/
def uniEscGo : Nat → List Char → Option (List Nat)
  | 0, cs => if cs.isEmpty then some [] else none
  | _ + 1, [] => some []
  | fuel + 1, c :: cs =>
    if c = '\\' then
      match escInterp cs with
      | none => none
      | some (vs, rest) => (uniEscGo fuel rest).map (vs ++ ·)
    else (uniEscGo fuel cs).map (c.toNat :: ·)

/-- `codecs.decode(s, 'unicode-escape')`, yielding code points. -/
def pyUnicodeUnescape (s : String) : Option (List Nat) :=
  uniEscGo s.data.length s.data

/-- `codecs.decode(d, 'unicode-escape').encode('latin1').decode('utf-8')`:
the escape-decoding applied to ESSID / model / device-name strings. -/
def decodeEscaped (s : String) : Except PyErr String :=
  match pyUnicodeUnescape s with
  | none => .error .valueError
  | some pts =>
    if pts.all (· ≤ 0xFF) then
      match utf8Decode pts with
      | some cs => .ok ⟨cs⟩
      | none => .error .valueError
    else .error .valueError

/-! ### The registration session tracker -/

/-- The `Data` object: the per-attempt artifact record. -/
structure Data where
  pke : String
  pkr : String
  e_hash1 : String
  e_hash2 : String
  authkey : String
  e_nonce : String
  wpa_psk : String
  state : String
deriving DecidableEq, Repr

/-- `Data.__init__`: every field starts empty. -/
def initData : Data := ⟨"", "", "", "", "", "", "", ""⟩

/-- Python truthiness of a string: non-empty. -/
def pyTruthy (s : String) : Bool := !(s == "")

/-- `Data.got_all` (as the boolean it is used as): all six pixie-dust
artifacts are non-empty. -/
def gotAll (d : Data) : Bool :=
  pyTruthy d.pke && pyTruthy d.pkr && pyTruthy d.e_nonce
    && pyTruthy d.authkey && pyTruthy d.e_hash1 && pyTruthy d.e_hash2

/-- The value `poll_wpa_supplicant` returns after its loop ends:
`data.wpa_psk` truthy, or `data.got_all()`. -/
def finalRes (d : Data) : Bool := pyTruthy d.wpa_psk || gotAll d

/-- `get_hex(line)`: `line.split(':', 3)[2].replace(' ', '').upper()`. -/
def getHex (line : String) : Except PyErr String := do
  let s ← pyIdx (pySplit line ":" (some 3)) 2
  .ok (pyUpper (removeChar ' ' s))

/-- Storing one captured hex field: the assignment happens first, the
`assert len(...) == n` afterwards — so on a length mismatch the mismatched
value is already in the record when the `AssertionError` is raised. -/
def storeHex (d : Data) (line : String) (upd : Data → String → Data)
    (n : Nat) : Data × Option PyErr :=
  match getHex line with
  | .error e => (d, some e)
  | .ok h =>
    let d := upd d h
    if h.data.length = n then (d, none) else (d, some .assertionFailed)

/-- One step of `process_wpa_supplicant` on an already-read, newline-
stripped line: the classify-and-apply chain, in source order.  Branches
that only print progress messages (and the `options.essid` assignments,
which live outside `Data`) leave the record unchanged but keep their
failure modes. -/
def process1 (iface : String) (d : Data) (line : String) : Data × Option PyErr :=
  if pyStarts line "WPS: " then
    if pyIn "Building Message M" line then
      match pyIdx (pySplit line "Building Message M") 1 with
      | .ok seg => ({d with state := "M" ++ seg}, none)
      | .error e => (d, some e)
    else if pyIn "Received M" line then
      match pyIdx (pySplit line "Received M") 1 with
      | .ok seg => ({d with state := "M" ++ seg}, none)
      | .error e => (d, some e)
    else if pyIn "Received WSC_NACK" line then
      ({d with state := "WSC_NACK"}, none)
    else if pyIn "Enrollee Nonce" line && pyIn "hexdump" line then
      storeHex d line (fun d h => {d with e_nonce := h}) 32
    else if pyIn "DH own Public Key" line && pyIn "hexdump" line then
      storeHex d line (fun d h => {d with pkr := h}) 384
    else if pyIn "DH peer Public Key" line && pyIn "hexdump" line then
      storeHex d line (fun d h => {d with pke := h}) 384
    else if pyIn "AuthKey" line && pyIn "hexdump" line then
      storeHex d line (fun d h => {d with authkey := h}) 64
    else if pyIn "E-Hash1" line && pyIn "hexdump" line then
      storeHex d line (fun d h => {d with e_hash1 := h}) 64
    else if pyIn "E-Hash2" line && pyIn "hexdump" line then
      storeHex d line (fun d h => {d with e_hash2 := h}) 64
    else if pyIn "Network Key" line && pyIn "hexdump" line then
      match getHex line with
      | .error e => (d, some e)
      | .ok h =>
        match bytesFromHex h.data with
        | none => (d, some .valueError)
        | some bs =>
          match utf8Decode bs with
          | none => (d, some .valueError)
          | some cs => ({d with wpa_psk := ⟨cs⟩, state := "GOT_PSK"}, none)
    else (d, none)
  else if pyIn ": State: " line then
    match pyIdx (pySplit line ": State: ") 1 with
    | .error e => (d, some e)
    | .ok seg =>
      match pySplit seg " -> " with
      | [_, new] => ({d with state := new}, none)
      | _ => (d, some .typeError)
  else if pyIn "WPS-FAIL" line then
    ({d with state := "WPS-FAIL"}, none)
  else if pyIn "NL80211_CMD_DEL_STATION" line then (d, none)
  else if pyIn "Trying to authenticate with" line then
    if pyIn "SSID" line then
      match pyIdx (pySplit line (String.singleton (Char.ofNat 39))) 1 with
      | .error e => (d, some e)
      | .ok seg =>
        match decodeEscaped seg with
        | .error e => (d, some e)
        | .ok _ => (d, none)
    else (d, none)
  else if pyIn "Authentication response" line then (d, none)
  else if pyIn "Trying to associate with" line then
    if pyIn "SSID" line then
      match pyIdx (pySplit line (String.singleton (Char.ofNat 39))) 1 with
      | .error e => (d, some e)
      | .ok seg =>
        match decodeEscaped seg with
        | .error e => (d, some e)
        | .ok _ => (d, none)
    else (d, none)
  else if pyIn "Associated with" line && pyIn iface line then (d, none)
  else if pyIn "EAPOL: txStart" line then
    ({d with state := "EAPOL Start"}, none)
  else (d, none)

/-- `poll_wpa_supplicant`: pull lines until end-of-stream or a terminal
state, then report `wpa_psk`-truthy-or-`got_all`.  A raised exception
(`some e`) propagates; the `Data` is returned alongside because the Python
object keeps its mutations in that case. -/
def poll (iface : String) (d : Data) : List String → Data × Except PyErr Bool
  | [] => (d, .ok (finalRes d))
  | line :: rest =>
    match process1 iface d line with
    | (d, some e) => (d, .error e)
    | (d, none) =>
      if d.state = "WSC_NACK" then (d, .ok (finalRes d))
      else if d.state = "GOT_PSK" then (d, .ok (finalRes d))
      else if d.state = "WPS-FAIL" then (d, .ok (finalRes d))
      else poll iface d rest

/-- The six pixie-dust artifact kinds whose hexdump lines carry a length
`assert`. -/
inductive Artifact where
  | nonce | pkr | pke | authkey | hash1 | hash2
deriving DecidableEq, Repr

/-- The asserted hex-character count (`2 ×` the protocol byte size). -/
def artifactLen : Artifact → Nat
  | .nonce => 32
  | .pkr => 384
  | .pke => 384
  | .authkey => 64
  | .hash1 => 64
  | .hash2 => 64

/-- The field assignment each artifact branch performs. -/
def artifactSet : Artifact → Data → String → Data
  | .nonce, d, h => {d with e_nonce := h}
  | .pkr, d, h => {d with pkr := h}
  | .pke, d, h => {d with pke := h}
  | .authkey, d, h => {d with authkey := h}
  | .hash1, d, h => {d with e_hash1 := h}
  | .hash2, d, h => {d with e_hash2 := h}

/-- The field each artifact branch writes. -/
def artifactGet : Artifact → Data → String
  | .nonce, d => d.e_nonce
  | .pkr, d => d.pkr
  | .pke, d => d.pke
  | .authkey, d => d.authkey
  | .hash1, d => d.e_hash1
  | .hash2, d => d.e_hash2

/-- Which artifact branch of `process_wpa_supplicant`'s chain a line
reaches: exactly the guards of `process1`, in source order, up to the six
`storeHex` branches. -/
def classifyArtifact (line : String) : Option Artifact :=
  if pyStarts line "WPS: " then
    if pyIn "Building Message M" line then none
    else if pyIn "Received M" line then none
    else if pyIn "Received WSC_NACK" line then none
    else if pyIn "Enrollee Nonce" line && pyIn "hexdump" line then some .nonce
    else if pyIn "DH own Public Key" line && pyIn "hexdump" line then some .pkr
    else if pyIn "DH peer Public Key" line && pyIn "hexdump" line then some .pke
    else if pyIn "AuthKey" line && pyIn "hexdump" line then some .authkey
    else if pyIn "E-Hash1" line && pyIn "hexdump" line then some .hash1
    else if pyIn "E-Hash2" line && pyIn "hexdump" line then some .hash2
    else none
  else none

set_option maxHeartbeats 2000000 in
/-- On any line that classifies as an artifact hexdump and whose hex
payload extracts successfully, `process1` stores the extracted value into
that artifact's field and then asserts the mandated length. -/
theorem process1_artifact (iface : String) (d : Data) (line : String)
    (a : Artifact) (h : String)
    (hc : classifyArtifact line = some a) (hget : getHex line = .ok h) :
    process1 iface d line
      = (artifactSet a d h,
         if h.data.length = artifactLen a then none
         else some PyErr.assertionFailed) := by
  rw [classifyArtifact] at hc
  split_ifs at hc with g0 g1 g2 g3 g4 g5 g6 g7 g8 g9
  · cases Option.some.inj hc
    rw [process1, if_pos g0, if_neg g1, if_neg g2, if_neg g3, if_pos g4,
      storeHex, hget]
    simp only [artifactSet, artifactLen]
    split_ifs <;> rfl
  · cases Option.some.inj hc
    rw [process1, if_pos g0, if_neg g1, if_neg g2, if_neg g3, if_neg g4,
      if_pos g5, storeHex, hget]
    simp only [artifactSet, artifactLen]
    split_ifs <;> rfl
  · cases Option.some.inj hc
    rw [process1, if_pos g0, if_neg g1, if_neg g2, if_neg g3, if_neg g4,
      if_neg g5, if_pos g6, storeHex, hget]
    simp only [artifactSet, artifactLen]
    split_ifs <;> rfl
  · cases Option.some.inj hc
    rw [process1, if_pos g0, if_neg g1, if_neg g2, if_neg g3, if_neg g4,
      if_neg g5, if_neg g6, if_pos g7, storeHex, hget]
    simp only [artifactSet, artifactLen]
    split_ifs <;> rfl
  · cases Option.some.inj hc
    rw [process1, if_pos g0, if_neg g1, if_neg g2, if_neg g3, if_neg g4,
      if_neg g5, if_neg g6, if_neg g7, if_pos g8, storeHex, hget]
    simp only [artifactSet, artifactLen]
    split_ifs <;> rfl
  · cases Option.some.inj hc
    rw [process1, if_pos g0, if_neg g1, if_neg g2, if_neg g3, if_neg g4,
      if_neg g5, if_neg g6, if_neg g7, if_neg g8, if_pos g9, storeHex, hget]
    simp only [artifactSet, artifactLen]
    split_ifs <;> rfl

/-! ### The scan-result parser (`wifi_scan`)

Each of the eleven regex matchers of the source is modelled by a function
computing the capture the corresponding handler uses (`re.match` anchors
at the start of the line and allows trailing text).  The handlers mutate
`networks[-1]`; the record list is kept most-recent-first here and
reversed at the end.
-/

/-- One access-point record (the dict built by `handle_network`; `BSSID`
is assigned immediately after the append, `ESSID` and `Level` only when
their lines occur). -/
structure Network where
  securityType : String
  wps : Option String
  wpsLocked : Bool
  model : String
  modelNumber : String
  deviceName : String
  bssid : String
  essid : Option String
  level : Option Int
deriving DecidableEq, Repr

/-- The fresh record appended by `handle_network`. -/
def emptyNetwork (bssid : String) : Network :=
  ⟨"Unknown", none, false, "", "", "", bssid, none, none⟩

/-- `line.strip('\t')`: tabs removed from both ends only. -/
def stripTabs (s : String) : String :=
  ⟨((s.data.dropWhile (· = '\t')).reverse.dropWhile (· = '\t')).reverse⟩

/-- Python `\w` (ASCII range; the scan fields matched here are ASCII). -/
def isWordChar (c : Char) : Bool := c.isAlphanum || c = '_'

/-- Does `\(on \w+\)` match at the start of `cs`? -/
def parenOK : List Char → Bool
  | '(' :: 'o' :: 'n' :: ' ' :: r =>
    let w := r.takeWhile isWordChar
    !w.isEmpty && (match r.drop w.length with | ')' :: _ => true | _ => false)
  | _ => false

/-- `( )?\(on \w+\)` at the start of `cs`. -/
def parenAfter (cs : List Char) : Bool :=
  parenOK cs || (match cs with | ' ' :: r => parenOK r | _ => false)

/-- Backtracking for the greedy `(\S+)` of the BSS pattern: `aRev` is the
current candidate capture reversed; shrink it until the tail matches. -/
def bssBT : List Char → List Char → Option (List Char)
  | [], _ => none
  | c :: aRev, rest =>
    if parenAfter rest then some ((c :: aRev).reverse)
    else bssBT aRev (c :: rest)

/-- `re.match(r'BSS (\S+)( )?\(on \w+\)', line)`, returning group 1. -/
def matchBSS : List Char → Option (List Char)
  | 'B' :: 'S' :: 'S' :: ' ' :: rest =>
    let amax := rest.takeWhile (fun c => !c.isWhitespace)
    bssBT amax.reverse (rest.drop amax.length)
  | _ => none

/-- `re.match(r'SSID: (.*)', line)`, returning group 1. -/
def matchSSID (cs : List Char) : Option (List Char) :=
  if pyPrefix "SSID: ".data cs then some (cs.drop 6) else none

/-- Greedy match of `([0-9]*[.])?[0-9]+` at the start of `cs`: the
matched characters and the remainder. -/
def parseNumTok (cs : List Char) : Option (List Char × List Char) :=
  let d1 := cs.takeWhile Char.isDigit
  let r1 := cs.drop d1.length
  match r1 with
  | '.' :: r2 =>
    let d2 := r2.takeWhile Char.isDigit
    if d2.isEmpty then (if d1.isEmpty then none else some (d1, r1))
    else some (d1 ++ '.' :: d2, r2.drop d2.length)
  | _ => if d1.isEmpty then none else some (d1, r1)

/-- `re.match(r'signal: ([+-]?([0-9]*[.])?[0-9]+) dBm', line)`, group 1. -/
def matchSignal (cs : List Char) : Option (List Char) :=
  if pyPrefix "signal: ".data cs then
    let r := cs.drop 8
    let sr : List Char × List Char :=
      match r with
      | '+' :: r2 => (['+'], r2)
      | '-' :: r2 => (['-'], r2)
      | r2 => ([], r2)
    match parseNumTok sr.2 with
    | none => none
    | some (num, r2) => if pyPrefix " dBm".data r2 then some (sr.1 ++ num) else none
  else none

/-- `int(float(s))` for a string matched by the signal pattern: truncation
toward zero (exact for values within double precision, which covers every
realistic dBm value). -/
def floatTrunc (cs : List Char) : Int :=
  match cs with
  | '-' :: r => -(decList (r.takeWhile Char.isDigit) : Int)
  | '+' :: r => (decList (r.takeWhile Char.isDigit) : Int)
  | r => (decList (r.takeWhile Char.isDigit) : Int)

/-- `re.match(r'(capability): (.+)', line)`, returning group 2. -/
def matchCapability (cs : List Char) : Option (List Char) :=
  if pyPrefix "capability: ".data cs then
    match cs.drop 12 with
    | [] => none
    | r => some r
  else none

/-- `re.match(r'(RSN):\t [*] Version: (\d+)', ...)` (and the `WPA`/`WPS`
variants): the fixed prefix followed by at least one digit. -/
def matchVer (pre : List Char) (cs : List Char) : Bool :=
  pyPrefix pre cs && (match cs.drop pre.length with | c :: _ => c.isDigit | [] => false)

def rsnPre : List Char := "RSN:\t * Version: ".data

def wpaPre : List Char := "WPA:\t * Version: ".data

/-- `re.match(r'WPS:\t [*] Version: (([0-9]*[.])?[0-9]+)', line)`, group 1. -/
def matchWPS (cs : List Char) : Option (List Char) :=
  if pyPrefix "WPS:\t * Version: ".data cs then
    match parseNumTok (cs.drop 17) with
    | some (num, _) => some num
    | none => none
  else none

/-- `re.match(r' [*] AP setup locked: (0x[0-9]+)', line)`: the decimal
digits after the mandatory `0x`. -/
def matchLocked (cs : List Char) : Option (List Char) :=
  if pyPrefix " * AP setup locked: 0x".data cs then
    let ds := (cs.drop 22).takeWhile Char.isDigit
    if ds.isEmpty then none else some ds
  else none

/-- `int(group, 16)` for the locked flag (`group` = `0x` + the digits). -/
def lockFlag (ds : List Char) : Nat :=
  ds.foldl (fun a c => 16 * a + hexVal c) 0

def matchModel (cs : List Char) : Option (List Char) :=
  if pyPrefix " * Model: ".data cs then some (cs.drop 10) else none

def matchModelNumber (cs : List Char) : Option (List Char) :=
  if pyPrefix " * Model Number: ".data cs then some (cs.drop 17) else none

def matchDeviceName (cs : List Char) : Option (List Char) :=
  if pyPrefix " * Device name: ".data cs then some (cs.drop 16) else none

/-- The security-type combinator of `handle_securityType`: `g1` is the
pattern's group 1 (`capability` / `RSN` / `WPA`), `g2` the capability
line's group 2, `sec` the record's current type. -/
def secCombine (g1 g2 sec : String) : String :=
  if g1 = "capability" then (if pyIn "Privacy" g2 then "WEP" else "Open")
  else if sec = "WEP" then
    (if g1 = "RSN" then "WPA2" else if g1 = "WPA" then "WPA" else sec)
  else if sec = "WPA" then (if g1 = "RSN" then "WPA/WPA2" else sec)
  else if sec = "WPA2" then (if g1 = "WPA" then "WPA/WPA2" else sec)
  else sec

/-- `networks[-1]` update: `IndexError` on an empty record list. -/
def withLast (ns : List Network) (f : Network → Network) :
    Except PyErr (List Network) :=
  match ns with
  | [] => .error .indexError
  | n :: rest => .ok (f n :: rest)

def stepBSS (cs : List Char) (ns : List Network) : Except PyErr (List Network) :=
  match matchBSS cs with
  | some g => .ok (emptyNetwork (pyUpper ⟨g⟩) :: ns)
  | none => .ok ns

def stepSSID (cs : List Char) (ns : List Network) : Except PyErr (List Network) :=
  match matchSSID cs with
  | some g =>
    match decodeEscaped ⟨g⟩ with
    | .error e => .error e
    | .ok v => withLast ns (fun n => {n with essid := some v})
  | none => .ok ns

def stepSignal (cs : List Char) (ns : List Network) : Except PyErr (List Network) :=
  match matchSignal cs with
  | some g => withLast ns (fun n => {n with level := some (floatTrunc g)})
  | none => .ok ns

def stepCap (cs : List Char) (ns : List Network) : Except PyErr (List Network) :=
  match matchCapability cs with
  | some g2 => withLast ns (fun n => {n with securityType := secCombine "capability" ⟨g2⟩ n.securityType})
  | none => .ok ns

def stepRSN (cs : List Char) (ns : List Network) : Except PyErr (List Network) :=
  if matchVer rsnPre cs then
    withLast ns (fun n => {n with securityType := secCombine "RSN" "" n.securityType})
  else .ok ns

def stepWPA (cs : List Char) (ns : List Network) : Except PyErr (List Network) :=
  if matchVer wpaPre cs then
    withLast ns (fun n => {n with securityType := secCombine "WPA" "" n.securityType})
  else .ok ns

def stepWPS (cs : List Char) (ns : List Network) : Except PyErr (List Network) :=
  match matchWPS cs with
  | some g => withLast ns (fun n => {n with wps := some ⟨g⟩})
  | none => .ok ns

def stepLocked (cs : List Char) (ns : List Network) : Except PyErr (List Network) :=
  match matchLocked cs with
  | some ds =>
    if lockFlag ds ≠ 0 then withLast ns (fun n => {n with wpsLocked := true})
    else .ok ns
  | none => .ok ns

def stepModel (cs : List Char) (ns : List Network) : Except PyErr (List Network) :=
  match matchModel cs with
  | some g =>
    match decodeEscaped ⟨g⟩ with
    | .error e => .error e
    | .ok v => withLast ns (fun n => {n with model := v})
  | none => .ok ns

def stepModelNumber (cs : List Char) (ns : List Network) : Except PyErr (List Network) :=
  match matchModelNumber cs with
  | some g =>
    match decodeEscaped ⟨g⟩ with
    | .error e => .error e
    | .ok v => withLast ns (fun n => {n with modelNumber := v})
  | none => .ok ns

def stepDeviceName (cs : List Char) (ns : List Network) : Except PyErr (List Network) :=
  match matchDeviceName cs with
  | some g =>
    match decodeEscaped ⟨g⟩ with
    | .error e => .error e
    | .ok v => withLast ns (fun n => {n with deviceName := v})
  | none => .ok ns

/-- The ten field matchers applied after the BSS matcher, in the source's
dictionary (insertion) order; every matcher that fires runs its handler
(the source loop has no `break`). -/
def lineStepAfterBSS (cs : List Char) (ns : List Network) :
    Except PyErr (List Network) := do
  let ns ← stepSSID cs ns
  let ns ← stepSignal cs ns
  let ns ← stepCap cs ns
  let ns ← stepRSN cs ns
  let ns ← stepWPA cs ns
  let ns ← stepWPS cs ns
  let ns ← stepLocked cs ns
  let ns ← stepModel cs ns
  let ns ← stepModelNumber cs ns
  stepDeviceName cs ns

/-- Processing one raw scan line: strip tabs, then try every matcher in
order. -/
def lineStep (ns : List Network) (rawLine : String) : Except PyErr (List Network) := do
  let cs := (stripTabs rawLine).data
  let ns ← stepBSS cs ns
  lineStepAfterBSS cs ns

/-- The record list produced by the scanning pass (in scan order). -/
def scanRecords (lines : List String) : Except PyErr (List Network) :=
  (List.foldlM lineStep [] lines).map List.reverse

/-- `bool(x['WPS'])`: the WPS field is `False` (`none`) or the matched
version string. -/
def wpsTruthy (n : Network) : Bool :=
  match n.wps with
  | none => false
  | some s => !(s == "")

/-- `x['Level']` as the sort key (guarded: the sort is only performed when
every record has a Level, else Python raises `KeyError`). -/
def levelKey (n : Network) : Int := n.level.getD 0

/-- Descending-by-level ordering used by `networks.sort(key=..., reverse=True)`. -/
def levelGE (a b : Network) : Prop := levelKey b ≤ levelKey a

instance : DecidableRel levelGE := fun a b =>
  inferInstanceAs (Decidable (levelKey b ≤ levelKey a))

instance : IsTotal Network levelGE :=
  ⟨fun a b => (le_total (levelKey b) (levelKey a)).imp id id⟩

instance : IsTrans Network levelGE :=
  ⟨fun _ _ _ h1 h2 => le_trans h2 h1⟩

/-- `wifi_scan` after the subprocess call: parse, drop non-WPS records,
stable-sort by descending signal level (Python's `list.sort` is stable;
`List.insertionSort` with this total preorder computes the same list).
`sort(key=...)` evaluates the key once per element, so a missing `Level`
key raises before any comparison. -/
def wifiScan (lines : List String) : Except PyErr (List Network) :=
  match scanRecords lines with
  | .error e => .error e
  | .ok ns =>
    let f := ns.filter wpsTruthy
    if f.all (fun n => n.level.isSome) then .ok (List.insertionSort levelGE f)
    else .error .keyError

/-- A line is a network boundary when the BSS pattern matches it. -/
def isBoundaryLine (l : String) : Bool := (matchBSS (stripTabs l).data).isSome

/-- A line whose handler reads `networks[-1]` when it fires: any of the
field patterns, or an AP-setup-locked line with a non-zero flag. -/
def accessingLine (l : String) : Bool :=
  let cs := (stripTabs l).data
  (matchSSID cs).isSome || (matchSignal cs).isSome || (matchCapability cs).isSome
    || matchVer rsnPre cs || matchVer wpaPre cs || (matchWPS cs).isSome
    || (match matchLocked cs with
        | some ds => decide (lockFlag ds ≠ 0)
        | none => false)
    || (matchModel cs).isSome || (matchModelNumber cs).isSome
    || (matchDeviceName cs).isSome

/-- The precondition under which the record-list accesses are safe: no
`networks[-1]`-accessing line occurs before the first boundary line. -/
def goodB : List String → Bool
  | [] => true
  | l :: rest =>
    if isBoundaryLine l then true
    else if accessingLine l then false
    else goodB rest

/-! ### Stability of the descending sort -/

theorem filter_orderedInsert (v : Int) (a : Network) (m : List Network) :
    (List.orderedInsert levelGE a m).filter (fun n => levelKey n == v)
      = (a :: m).filter (fun n => levelKey n == v) := by
  induction m with
  | nil => rfl
  | cons b t ih =>
    rw [List.orderedInsert]
    by_cases hr : levelGE a b
    · rw [if_pos hr]
    · rw [if_neg hr]
      have hlt : levelKey a < levelKey b := lt_of_not_le hr
      by_cases hb : (levelKey b == v) = true
      · have ha : (levelKey a == v) = false := by
          rw [beq_iff_eq] at hb
          simp only [beq_eq_false_iff_ne, ne_eq]
          omega
        simp [List.filter_cons, hb, ha, ih]
      · have hb' : (levelKey b == v) = false := by simpa using hb
        simp [List.filter_cons, hb', ih]

theorem filter_insertionSort (v : Int) (l : List Network) :
    (List.insertionSort levelGE l).filter (fun n => levelKey n == v)
      = l.filter (fun n => levelKey n == v) := by
  induction l with
  | nil => rfl
  | cons a t ih =>
    rw [List.insertionSort, filter_orderedInsert, List.filter_cons, ih,
      List.filter_cons]

/-! ### Safety invariants of the scanning pass -/

/-- A step that, on a non-empty record list, never raises `IndexError`
and never empties the list. -/
def Keeps (f : List Network → Except PyErr (List Network)) : Prop :=
  ∀ ns, ns ≠ [] →
    f ns ≠ .error .indexError ∧ ∀ ns', f ns = .ok ns' → ns' ≠ []

theorem withLast_keeps (g : Network → Network) :
    Keeps (fun ns => withLast ns g) := by
  intro ns hne
  cases ns with
  | nil => exact absurd rfl hne
  | cons n rest =>
    refine ⟨fun h => Except.noConfusion h, fun ns' h => ?_⟩
    cases Except.ok.inj h
    simp

theorem decodeEscaped_not_index (s : String) :
    decodeEscaped s ≠ .error .indexError := by
  rw [decodeEscaped]
  cases pyUnicodeUnescape s with
  | none => simp
  | some pts =>
    dsimp only
    by_cases hall : pts.all (· ≤ 0xFF) = true
    · rw [if_pos hall]
      cases utf8Decode pts <;> simp
    · rw [if_neg hall]; simp

theorem stepBSS_keeps (cs : List Char) : Keeps (stepBSS cs) := by
  intro ns hne
  rw [stepBSS]
  cases matchBSS cs with
  | none =>
    exact ⟨fun h => Except.noConfusion h,
      fun ns' h => by cases Except.ok.inj h; exact hne⟩
  | some g =>
    exact ⟨fun h => Except.noConfusion h,
      fun ns' h => by cases Except.ok.inj h; simp⟩

theorem decodedFieldStep_keeps (m : Option (List Char))
    (upd : String → Network → Network) :
    Keeps (fun ns =>
      match m with
      | some g =>
        match decodeEscaped ⟨g⟩ with
        | .error e => .error e
        | .ok v => withLast ns (upd v)
      | none => .ok ns) := by
  intro ns hne
  dsimp only
  cases m with
  | none =>
    exact ⟨fun h => Except.noConfusion h,
      fun ns' h => by cases Except.ok.inj h; exact hne⟩
  | some g =>
    dsimp only
    cases hd : decodeEscaped ⟨g⟩ with
    | error e =>
      refine ⟨fun heq => ?_, fun ns' h => by simp at h⟩
      cases Except.error.inj heq
      exact decodeEscaped_not_index ⟨g⟩ hd
    | ok v =>
      exact withLast_keeps (upd v) ns hne

theorem pureFieldStep_keeps (m : Option (List Char))
    (upd : List Char → Network → Network) :
    Keeps (fun ns =>
      match m with
      | some g => withLast ns (upd g)
      | none => .ok ns) := by
  intro ns hne
  dsimp only
  cases m with
  | none =>
    exact ⟨fun h => Except.noConfusion h,
      fun ns' h => by cases Except.ok.inj h; exact hne⟩
  | some g => exact withLast_keeps (upd g) ns hne

theorem stepSSID_keeps (cs : List Char) : Keeps (stepSSID cs) :=
  decodedFieldStep_keeps (matchSSID cs) (fun v n => {n with essid := some v})

theorem stepSignal_keeps (cs : List Char) : Keeps (stepSignal cs) :=
  pureFieldStep_keeps (matchSignal cs)
    (fun g n => {n with level := some (floatTrunc g)})

theorem stepCap_keeps (cs : List Char) : Keeps (stepCap cs) :=
  pureFieldStep_keeps (matchCapability cs)
    (fun g2 n => {n with securityType := secCombine "capability" ⟨g2⟩ n.securityType})

theorem stepRSN_keeps (cs : List Char) : Keeps (stepRSN cs) := by
  intro ns hne
  rw [stepRSN]
  by_cases hv : matchVer rsnPre cs = true
  · rw [if_pos hv]
    exact withLast_keeps _ ns hne
  · rw [if_neg hv]
    exact ⟨by simp, fun ns' h => by cases Except.ok.inj h; exact hne⟩

theorem stepWPA_keeps (cs : List Char) : Keeps (stepWPA cs) := by
  intro ns hne
  rw [stepWPA]
  by_cases hv : matchVer wpaPre cs = true
  · rw [if_pos hv]
    exact withLast_keeps _ ns hne
  · rw [if_neg hv]
    exact ⟨by simp, fun ns' h => by cases Except.ok.inj h; exact hne⟩

theorem stepWPS_keeps (cs : List Char) : Keeps (stepWPS cs) :=
  pureFieldStep_keeps (matchWPS cs) (fun g n => {n with wps := some ⟨g⟩})

theorem stepLocked_keeps (cs : List Char) : Keeps (stepLocked cs) := by
  intro ns hne
  rw [stepLocked]
  cases matchLocked cs with
  | none =>
    exact ⟨fun h => Except.noConfusion h,
      fun ns' h => by cases Except.ok.inj h; exact hne⟩
  | some ds =>
    dsimp only
    by_cases hf : lockFlag ds ≠ 0
    · rw [if_pos hf]
      exact withLast_keeps _ ns hne
    · rw [if_neg hf]
      exact ⟨fun h => Except.noConfusion h,
        fun ns' h => by cases Except.ok.inj h; exact hne⟩

theorem stepModel_keeps (cs : List Char) : Keeps (stepModel cs) :=
  decodedFieldStep_keeps (matchModel cs) (fun v n => {n with model := v})

theorem stepModelNumber_keeps (cs : List Char) : Keeps (stepModelNumber cs) :=
  decodedFieldStep_keeps (matchModelNumber cs) (fun v n => {n with modelNumber := v})

theorem stepDeviceName_keeps (cs : List Char) : Keeps (stepDeviceName cs) :=
  decodedFieldStep_keeps (matchDeviceName cs) (fun v n => {n with deviceName := v})

theorem exceptBind_ok {α β : Type} (a : α) (f : α → Except PyErr β) :
    (Except.ok a >>= f) = f a := rfl

theorem keeps_bind {f g : List Network → Except PyErr (List Network)}
    (hf : Keeps f) (hg : Keeps g) : Keeps (fun ns => f ns >>= g) := by
  intro ns hne
  dsimp only
  rcases hfr : f ns with e | ns1
  · refine ⟨fun h => ?_, fun ns' h => ?_⟩
    · cases Except.error.inj h
      exact (hf ns hne).1 hfr
    · exact Except.noConfusion h
  · exact hg ns1 ((hf ns hne).2 ns1 hfr)

theorem lineStepAfterBSS_keeps (cs : List Char) : Keeps (lineStepAfterBSS cs) := by
  unfold lineStepAfterBSS
  exact keeps_bind (stepSSID_keeps cs) (keeps_bind (stepSignal_keeps cs)
    (keeps_bind (stepCap_keeps cs) (keeps_bind (stepRSN_keeps cs)
      (keeps_bind (stepWPA_keeps cs) (keeps_bind (stepWPS_keeps cs)
        (keeps_bind (stepLocked_keeps cs) (keeps_bind (stepModel_keeps cs)
          (keeps_bind (stepModelNumber_keeps cs) (stepDeviceName_keeps cs)))))))))

theorem lineStep_keeps (l : String) : Keeps (fun ns => lineStep ns l) := by
  unfold lineStep
  exact keeps_bind (stepBSS_keeps _) (lineStepAfterBSS_keeps _)

theorem foldlM_not_index : ∀ (lines : List String) (ns : List Network), ns ≠ [] →
    List.foldlM lineStep ns lines ≠ .error .indexError := by
  intro lines
  induction lines with
  | nil => intro ns _ h; exact Except.noConfusion h
  | cons l rest ih =>
    intro ns hne h
    rw [List.foldlM_cons] at h
    rcases hl : lineStep ns l with e | ns1
    · rw [hl] at h
      have hb : (Except.error e >>= fun b => List.foldlM lineStep b rest)
          = (.error e : Except PyErr (List Network)) := rfl
      rw [hb] at h
      cases Except.error.inj h
      exact ((lineStep_keeps l) ns hne).1 hl
    · rw [hl] at h
      have hb : (Except.ok ns1 >>= fun b => List.foldlM lineStep b rest)
          = List.foldlM lineStep ns1 rest := rfl
      rw [hb] at h
      exact ih ns1 (((lineStep_keeps l) ns hne).2 ns1 hl) h

theorem lineStep_boundary {l : String} (hb : isBoundaryLine l = true) :
    lineStep [] l ≠ .error .indexError
      ∧ ∀ ns', lineStep [] l = .ok ns' → ns' ≠ [] := by
  rcases hm : matchBSS (stripTabs l).data with _ | g
  · rw [isBoundaryLine, hm] at hb; simp at hb
  · have h1 : stepBSS (stripTabs l).data [] = .ok [emptyNetwork (pyUpper ⟨g⟩)] := by
      rw [stepBSS, hm]
    have hk := lineStepAfterBSS_keeps (stripTabs l).data
      [emptyNetwork (pyUpper ⟨g⟩)] (by simp)
    have hall : lineStep [] l
        = lineStepAfterBSS (stripTabs l).data [emptyNetwork (pyUpper ⟨g⟩)] := by
      show (stepBSS (stripTabs l).data [] >>=
        fun ns => lineStepAfterBSS (stripTabs l).data ns) = _
      rw [h1]
      rfl
    rw [hall]
    exact hk

theorem option_eq_none_of_isSome_false {α : Type} {o : Option α}
    (h : o.isSome = false) : o = none := by
  cases o
  · rfl
  · simp at h

theorem lineStep_noop {l : String} (hb : isBoundaryLine l = false)
    (ha : accessingLine l = false) : lineStep [] l = .ok [] := by
  have hBSS : matchBSS (stripTabs l).data = none := by
    rw [isBoundaryLine] at hb
    exact option_eq_none_of_isSome_false hb
  rw [accessingLine] at ha
  simp only [Bool.or_eq_false_iff] at ha
  obtain ⟨⟨⟨⟨⟨⟨⟨⟨⟨h1, h2⟩, h3⟩, h4⟩, h5⟩, h6⟩, h7⟩, h8⟩, h9⟩, h10⟩ := ha
  have e0 : stepBSS (stripTabs l).data [] = .ok [] := by rw [stepBSS, hBSS]
  have e1 : stepSSID (stripTabs l).data [] = .ok [] := by
    rw [stepSSID, option_eq_none_of_isSome_false h1]
  have e2 : stepSignal (stripTabs l).data [] = .ok [] := by
    rw [stepSignal, option_eq_none_of_isSome_false h2]
  have e3 : stepCap (stripTabs l).data [] = .ok [] := by
    rw [stepCap, option_eq_none_of_isSome_false h3]
  have e4 : stepRSN (stripTabs l).data [] = .ok [] := by
    rw [stepRSN, h4]
    rfl
  have e5 : stepWPA (stripTabs l).data [] = .ok [] := by
    rw [stepWPA, h5]
    rfl
  have e6 : stepWPS (stripTabs l).data [] = .ok [] := by
    rw [stepWPS, option_eq_none_of_isSome_false h6]
  have e7 : stepLocked (stripTabs l).data [] = .ok [] := by
    rw [stepLocked]
    rcases hm : matchLocked (stripTabs l).data with _ | ds
    · rfl
    · rw [hm] at h7
      dsimp only at h7 ⊢
      rw [if_neg (of_decide_eq_false h7)]
  have e8 : stepModel (stripTabs l).data [] = .ok [] := by
    rw [stepModel, option_eq_none_of_isSome_false h8]
  have e9 : stepModelNumber (stripTabs l).data [] = .ok [] := by
    rw [stepModelNumber, option_eq_none_of_isSome_false h9]
  have e10 : stepDeviceName (stripTabs l).data [] = .ok [] := by
    rw [stepDeviceName, option_eq_none_of_isSome_false h10]
  simp only [lineStep, lineStepAfterBSS, e0, exceptBind_ok, e1, e2, e3, e4,
    e5, e6, e7, e8, e9, e10]

theorem fold_good_not_index : ∀ lines, goodB lines = true →
    List.foldlM lineStep ([] : List Network) lines ≠ .error .indexError := by
  intro lines
  induction lines with
  | nil => intro _ h; exact Except.noConfusion h
  | cons l rest ih =>
    intro hg h
    rw [goodB] at hg
    rw [List.foldlM_cons] at h
    by_cases hb : isBoundaryLine l = true
    · rcases hl : lineStep [] l with e | ns1
      · rw [hl] at h
        have hbnd : (Except.error e >>= fun b => List.foldlM lineStep b rest)
            = (.error e : Except PyErr (List Network)) := rfl
        rw [hbnd] at h
        cases Except.error.inj h
        exact (lineStep_boundary hb).1 hl
      · rw [hl] at h
        have hbnd : (Except.ok ns1 >>= fun b => List.foldlM lineStep b rest)
            = List.foldlM lineStep ns1 rest := rfl
        rw [hbnd] at h
        exact foldlM_not_index rest ns1 ((lineStep_boundary hb).2 ns1 hl) h
    · have hb' : isBoundaryLine l = false := by simpa using hb
      rw [if_neg (by simp [hb'])] at hg
      by_cases hac : accessingLine l = true
      · rw [if_pos (by simp [hac])] at hg
        exact Bool.noConfusion hg
      · have hac' : accessingLine l = false := by simpa using hac
        rw [if_neg (by simp [hac'])] at hg
        rw [lineStep_noop hb' hac'] at h
        have hbnd : ((Except.ok [] : Except PyErr (List Network))
              >>= fun b => List.foldlM lineStep b rest)
            = List.foldlM lineStep [] rest := rfl
        rw [hbnd] at h
        exact ih hg h

/-! ### Claims C7, C8, C10 -/

/-- Two scan blocks; only the second has a WPS line, and the first has the
stronger signal. -/
def scanScenario : List String :=
  ["BSS aa:bb:cc:dd:ee:01(on wlan0)",
   "\tSSID: NetOne",
   "\tsignal: -10.00 dBm",
   "BSS aa:bb:cc:dd:ee:02(on wlan0)",
   "\tSSID: NetTwo",
   "\tsignal: -70.00 dBm",
   "\tWPS:\t * Version: 1.0"]

def netOneRec : Network :=
  ⟨"Unknown", none, false, "", "", "", "AA:BB:CC:DD:EE:01", some "NetOne", some (-10)⟩

def netTwoRec : Network :=
  ⟨"Unknown", some "1.0", false, "", "", "", "AA:BB:CC:DD:EE:02", some "NetTwo", some (-70)⟩

set_option maxRecDepth 200000 in
/-- C7: whenever the scan succeeds, its output is exactly the parsed
records with truthy WPS fields, stably sorted by descending signal level
(`insertionSort` by `level-≥` is that stable sort; the permutation, the
sortedness and the per-level-value stability are proved separately); in
particular the two-block dump yields exactly block 2's record although
block 1's signal is stronger. -/
theorem C7_scan_filter_sort :
    (∀ lines recs out, scanRecords lines = .ok recs → wifiScan lines = .ok out →
      out = List.insertionSort levelGE (recs.filter wpsTruthy)
      ∧ List.Perm out (recs.filter wpsTruthy)
      ∧ List.Sorted levelGE out
      ∧ (∀ v : Int, out.filter (fun n => levelKey n == v)
          = (recs.filter wpsTruthy).filter (fun n => levelKey n == v)))
    ∧ wifiScan scanScenario = .ok [netTwoRec] := by
  constructor
  · intro lines recs out h1 h2
    rw [wifiScan, h1] at h2
    dsimp only at h2
    by_cases hall : (recs.filter wpsTruthy).all (fun n => n.level.isSome) = true
    · rw [if_pos hall] at h2
      have hout : out = List.insertionSort levelGE (recs.filter wpsTruthy) :=
        (Except.ok.inj h2).symm
      subst hout
      exact ⟨rfl, List.perm_insertionSort _ _, List.sorted_insertionSort _ _,
        fun v => filter_insertionSort v _⟩
    · rw [if_neg hall] at h2
      exact absurd h2 (by simp)
  · rfl

set_option maxRecDepth 200000 in
theorem C7_scan_filter_sort_witness :
    [netTwoRec] = List.insertionSort levelGE ([netOneRec, netTwoRec].filter wpsTruthy) :=
  (C7_scan_filter_sort.1 scanScenario [netOneRec, netTwoRec] [netTwoRec] rfl rfl).1

def bssLineFF : String := "BSS aa:bb:cc:dd:ee:ff(on wlan0)"

def capPrivacyLine : String := "\tcapability: ESS Privacy ShortSlotTime (0x0411)"

def rsnVersionLine : String := "\tRSN:\t * Version: 1"

set_option maxRecDepth 200000 in
/-- C8: the security-type combinator sets WEP/Open from the capability
line's Privacy bit, upgrades WEP→WPA2 and WPA→WPA/WPA2 on a later RSN
line, and WEP→WPA and WPA2→WPA/WPA2 on a later WPA line; running the
parser over a Privacy capability line followed by an RSN line yields WPA2,
and without the RSN line the type stays WEP. -/
theorem C8_security_resolution :
    (∀ sec g2, secCombine "capability" g2 sec
        = if pyIn "Privacy" g2 then "WEP" else "Open")
    ∧ (∀ g2, secCombine "RSN" g2 "WEP" = "WPA2")
    ∧ (∀ g2, secCombine "RSN" g2 "WPA" = "WPA/WPA2")
    ∧ (∀ g2, secCombine "WPA" g2 "WEP" = "WPA")
    ∧ (∀ g2, secCombine "WPA" g2 "WPA2" = "WPA/WPA2")
    ∧ scanRecords [bssLineFF, capPrivacyLine, rsnVersionLine]
        = .ok [⟨"WPA2", none, false, "", "", "", "AA:BB:CC:DD:EE:FF", none, none⟩]
    ∧ scanRecords [bssLineFF, capPrivacyLine]
        = .ok [⟨"WEP", none, false, "", "", "", "AA:BB:CC:DD:EE:FF", none, none⟩] :=
  ⟨fun _ _ => rfl, fun _ => rfl, fun _ => rfl, fun _ => rfl, fun _ => rfl,
   rfl, rfl⟩

set_option maxRecDepth 200000 in
/-- Counterexample to C10: an input whose first line is a network
boundary — so the claim's precondition holds — on which a handler still
fails: the SSID escape-decoding of `"SSID: \x"` raises a `ValueError`
(truncated `\xXX` escape), so the parse is not total under the claimed
precondition. -/
theorem C10_counterexample :
    goodB ["BSS aa:bb:cc:dd:ee:ff(on wlan0)", "\tSSID: \\x"] = true
    ∧ wifiScan ["BSS aa:bb:cc:dd:ee:ff(on wlan0)", "\tSSID: \\x"]
        = .error PyErr.valueError := ⟨rfl, rfl⟩

set_option maxRecDepth 200000 in
/-- C10, amended: the parser attaches field lines to the most recently
started record, so a field-matching line (SSID, signal, capability,
RSN/WPA, WPS, model, model number, device name — and likewise a non-zero
AP-setup-locked line) before any boundary line fails with an out-of-range
access on the empty record list; when every such line is preceded by some
boundary line the out-of-range access cannot happen, though handlers can
still fail for other reasons (escape-decoding errors). -/
theorem C10_boundary_precondition :
    (∀ lines, goodB lines = true → wifiScan lines ≠ .error PyErr.indexError)
    ∧ (∀ rest, wifiScan ("SSID: x" :: rest) = .error PyErr.indexError)
    ∧ (∀ rest, wifiScan ("signal: -49.00 dBm" :: rest) = .error PyErr.indexError)
    ∧ (∀ rest, wifiScan ("capability: ESS Privacy (0x0411)" :: rest) = .error PyErr.indexError)
    ∧ (∀ rest, wifiScan ("RSN:\t * Version: 1" :: rest) = .error PyErr.indexError)
    ∧ (∀ rest, wifiScan ("WPA:\t * Version: 1" :: rest) = .error PyErr.indexError)
    ∧ (∀ rest, wifiScan ("WPS:\t * Version: 1.0" :: rest) = .error PyErr.indexError)
    ∧ (∀ rest, wifiScan (" * AP setup locked: 0x1" :: rest) = .error PyErr.indexError)
    ∧ (∀ rest, wifiScan (" * Model: Foo" :: rest) = .error PyErr.indexError)
    ∧ (∀ rest, wifiScan (" * Model Number: 123" :: rest) = .error PyErr.indexError)
    ∧ (∀ rest, wifiScan (" * Device name: Bar" :: rest) = .error PyErr.indexError) := by
  refine ⟨?_, fun _ => rfl, fun _ => rfl, fun _ => rfl, fun _ => rfl,
    fun _ => rfl, fun _ => rfl, fun _ => rfl, fun _ => rfl, fun _ => rfl,
    fun _ => rfl⟩
  intro lines hg h
  rw [wifiScan] at h
  rcases hf : List.foldlM lineStep ([] : List Network) lines with e | ns
  · have hs : scanRecords lines = .error e := by rw [scanRecords, hf]; rfl
    rw [hs] at h
    dsimp only at h
    cases Except.error.inj h
    exact fold_good_not_index lines hg hf
  · have hs : scanRecords lines = .ok ns.reverse := by rw [scanRecords, hf]; rfl
    rw [hs] at h
    dsimp only at h
    by_cases hall : (ns.reverse.filter wpsTruthy).all (fun n => n.level.isSome) = true
    · rw [if_pos hall] at h
      exact absurd h (by simp)
    · rw [if_neg hall] at h
      cases Except.error.inj h

theorem C10_boundary_precondition_witness :
    wifiScan ["BSS aa:bb:cc:dd:ee:03(on wlan0)"] ≠ .error PyErr.indexError :=
  C10_boundary_precondition.1 ["BSS aa:bb:cc:dd:ee:03(on wlan0)"] rfl

/-! ### Concrete supplicant lines for the session-tracker claims -/

def nonce32Line : String :=
  "WPS:  Enrollee Nonce - hexdump(len=16):" ++ String.join (List.replicate 16 " 1a")

def nonce30Line : String :=
  "WPS:  Enrollee Nonce - hexdump(len=16):" ++ String.join (List.replicate 15 " 1a")

def goodNonceHex : String := String.join (List.replicate 16 "1A")

def badNonceHex : String := String.join (List.replicate 15 "1A")

def pkeLine : String :=
  "WPS:  DH peer Public Key - hexdump(len=192):" ++ String.join (List.replicate 192 " 0f")

def pkrLine : String :=
  "WPS:  DH own Public Key - hexdump(len=192):" ++ String.join (List.replicate 192 " 0e")

def authkeyLine : String :=
  "WPS:  AuthKey - hexdump(len=32):" ++ String.join (List.replicate 32 " 2b")

def hash1Line : String :=
  "WPS:  E-Hash1 - hexdump(len=32):" ++ String.join (List.replicate 32 " 3c")

def hash2Line : String :=
  "WPS:  E-Hash2 - hexdump(len=32):" ++ String.join (List.replicate 32 " 4d")






/-- A complete run: M1 out, M2 in, all six pixie artifacts at their
correct lengths, then a WSC_NACK. -/
def nackScenario : List String :=
  ["WPS: Building Message M1", "WPS: Received M2", pkeLine, pkrLine,
   nonce32Line, authkeyLine, hash1Line, hash2Line, "WPS: Received WSC_NACK"]

/-- A run that reaches WPS-FAIL having captured only the nonce. -/
def failScenario : List String :=
  ["WPS: Building Message M1", nonce32Line, "WPS-FAIL msg=8 config_error=15"]

/-! ### Claims C1, C2, C9 -/

set_option maxRecDepth 100000 in
/-- C1: whenever the polling loop terminates normally, the boolean it
returns is exactly `wpa_psk`-captured-or-all-six-artifacts; in particular
the all-artifacts run ending in `WSC_NACK` is reported a success, and the
partial-data `WPS-FAIL` run a failure. -/
theorem C1_completion_predicate :
    (∀ lines (iface : String) (d : Data) b,
      (poll iface d lines).2 = .ok b → b = finalRes (poll iface d lines).1)
    ∧ (poll "wlan0" initData nackScenario).2 = .ok true
    ∧ (poll "wlan0" initData nackScenario).1.state = "WSC_NACK"
    ∧ (poll "wlan0" initData failScenario).2 = .ok false
    ∧ (poll "wlan0" initData failScenario).1.state = "WPS-FAIL" := by
  refine ⟨?_, rfl, rfl, rfl, rfl⟩
  intro lines
  induction lines with
  | nil =>
    intro iface d b h
    exact (Except.ok.inj h).symm
  | cons line rest ih =>
    intro iface d b h
    simp only [poll] at h ⊢
    rcases hp : process1 iface d line with ⟨d', e?⟩
    rw [hp] at h
    cases e? with
    | some e => simp at h
    | none =>
      dsimp only at h ⊢
      by_cases h1 : d'.state = "WSC_NACK"
      · rw [if_pos h1] at h ⊢
        exact (Except.ok.inj h).symm
      · rw [if_neg h1] at h ⊢
        by_cases h2 : d'.state = "GOT_PSK"
        · rw [if_pos h2] at h ⊢
          exact (Except.ok.inj h).symm
        · rw [if_neg h2] at h ⊢
          by_cases h3 : d'.state = "WPS-FAIL"
          · rw [if_pos h3] at h ⊢
            exact (Except.ok.inj h).symm
          · rw [if_neg h3] at h ⊢
            exact ih iface d' b h

set_option maxRecDepth 100000 in
theorem C1_completion_predicate_witness :
    false = finalRes (poll "wlan0" initData []).1 :=
  C1_completion_predicate.1 [] "wlan0" initData false rfl

set_option maxRecDepth 100000 in
/-- Counterexample to C2: an Enrollee-Nonce line with 30 hex characters
makes the tracker fail its `assert` (a plain `AssertionError`, not a
distinct `ArtifactLengthMismatch`), and the mismatched 30-character value
has already been stored into the record's nonce field when it fails. -/
theorem C2_counterexample :
    process1 "wlan0" initData nonce30Line
      = ({initData with e_nonce := badNonceHex}, some PyErr.assertionFailed)
    ∧ badNonceHex ≠ "" := by
  constructor
  · decide
  · decide

set_option maxRecDepth 100000 in
/-- C2, amended: for every line the tracker classifies as one of the six
artifact hexdumps, with any extracted hex payload, the tracker stores the
extracted value into that artifact's field and then checks the mandated
length with the source's `assert`: on a mismatch it raises an
`AssertionError` (the code has no distinct `ArtifactLengthMismatch`
error), which aborts the polling loop — but the mismatched value has
already been assigned to the field when the assertion fires.  A payload of
exactly the mandated length is accepted; in particular a 30-hex-char
Enrollee-Nonce line fails and a 32-hex-char one is accepted. -/
theorem C2_length_mismatch_assert :
    (∀ (iface : String) (d : Data) (line : String) (a : Artifact) (h : String),
      classifyArtifact line = some a → getHex line = .ok h →
      process1 iface d line
        = (artifactSet a d h,
           if h.data.length = artifactLen a then none
           else some PyErr.assertionFailed)
      ∧ artifactGet a (artifactSet a d h) = h
      ∧ (h.data.length ≠ artifactLen a → ∀ rest,
          (poll iface d (line :: rest)).2 = .error PyErr.assertionFailed))
    ∧ (∀ d, process1 "wlan0" d nonce30Line
      = ({d with e_nonce := badNonceHex}, some PyErr.assertionFailed))
    ∧ (∀ d, process1 "wlan0" d nonce32Line
      = ({d with e_nonce := goodNonceHex}, none)) := by
  refine ⟨?_, fun _ => rfl, fun _ => rfl⟩
  intro iface d line a h hc hget
  have hp := process1_artifact iface d line a h hc hget
  refine ⟨hp, by cases a <;> rfl, ?_⟩
  intro hlen rest
  rw [poll, hp, if_neg hlen]

set_option maxRecDepth 100000 in
theorem C2_length_mismatch_assert_witness :
    (process1 "wlan0" initData nonce30Line
      = (artifactSet Artifact.nonce initData badNonceHex,
         if badNonceHex.data.length = artifactLen Artifact.nonce then none
         else some PyErr.assertionFailed))
    ∧ artifactGet Artifact.nonce (artifactSet Artifact.nonce initData badNonceHex)
        = badNonceHex :=
  ⟨(C2_length_mismatch_assert.1 "wlan0" initData nonce30Line Artifact.nonce
      badNonceHex rfl rfl).1,
   (C2_length_mismatch_assert.1 "wlan0" initData nonce30Line Artifact.nonce
      badNonceHex rfl rfl).2.1⟩

set_option maxRecDepth 100000 in
/-- C9: processing `"WPS: Building Message M1"` from any state sets the
state tag to `M1` and leaves every artifact field unchanged; processing a
valid 16-byte Enrollee-Nonce hexdump line populates only the nonce field,
leaving the state tag and the other artifact fields unchanged. -/
theorem C9_frame_effect :
    (∀ (iface : String) (d : Data),
      process1 iface d "WPS: Building Message M1" = ({d with state := "M1"}, none))
    ∧ (∀ (iface : String) (d : Data),
      process1 iface d nonce32Line = ({d with e_nonce := goodNonceHex}, none)) :=
  ⟨fun _ _ => rfl, fun _ _ => rfl⟩

/-! ### Arithmetic lemmas about the checksum and decimal rendering -/

theorem checksumAccum_eq (n : Nat) : ∀ a, checksumAccum n a = a + specSum n := by
  induction n using Nat.strong_induction_on with
  | _ n ih =>
    intro a
    by_cases h : n = 0
    · subst h; rw [checksumAccum, specSum]; simp
    · rw [checksumAccum, specSum]
      simp only [h, dite_false]
      rw [ih (n / 100) (Nat.div_lt_self (Nat.pos_of_ne_zero h) (by omega))]
      omega

theorem checksum_eq_spec (n : Nat) : checksum n = (10 - specSum n % 10) % 10 := by
  rw [checksum, checksumAccum_eq, Nat.zero_add]

theorem checksum_lt_ten (n : Nat) : checksum n < 10 :=
  Nat.mod_lt _ (by norm_num)

theorem natDigits_of_lt {n : Nat} (h : n < 10) : natDigits n = [n] := by
  rw [natDigits]; simp [h]

theorem natDigits_of_ge {n : Nat} (h : ¬ n < 10) :
    natDigits n = natDigits (n / 10) ++ [n % 10] := by
  conv_lhs => rw [natDigits]
  simp [h]

theorem natDigits_ne_nil (n : Nat) : natDigits n ≠ [] := by
  by_cases h : n < 10
  · rw [natDigits_of_lt h]; simp
  · rw [natDigits_of_ge h]; simp

theorem natDigits_all_lt (n : Nat) : ∀ d ∈ natDigits n, d < 10 := by
  induction n using Nat.strong_induction_on with
  | _ n ih =>
    by_cases h : n < 10
    · rw [natDigits_of_lt h]; simpa using h
    · rw [natDigits_of_ge h]
      intro d hd
      rcases List.mem_append.1 hd with hd | hd
      · exact ih (n / 10) (Nat.div_lt_self (by omega) (by omega)) d hd
      · simp at hd; subst hd; exact Nat.mod_lt _ (by omega)

theorem natDigits_length_le : ∀ k, 1 ≤ k → ∀ n, n < 10 ^ k →
    (natDigits n).length ≤ k := by
  intro k
  induction k with
  | zero => omega
  | succ k ih =>
    intro _ n hn
    by_cases h : n < 10
    · rw [natDigits_of_lt h]; simp
    · rw [natDigits_of_ge h]
      have hk : 1 ≤ k := by
        by_contra hk
        have : k = 0 := by omega
        subst this; simp at hn; omega
      have : n / 10 < 10 ^ k := by
        rw [Nat.div_lt_iff_lt_mul (by omega)]
        calc n < 10 ^ (k + 1) := hn
        _ = 10 ^ k * 10 := by ring
      have := ih hk (n / 10) this
      simp [List.length_append]
      omega

theorem decChar_toNat {d : Nat} (h : d < 10) : (decChar d).toNat = 48 + d := by
  interval_cases d <;> rfl

theorem decChar_ne_sign {d : Nat} (h : d < 10) : ¬(decChar d = '+' ∨ decChar d = '-') := by
  interval_cases d <;> decide

theorem foldl_dec_digits (n : Nat) : ∀ a,
    List.foldl (fun a c => 10 * a + (c.toNat - 48)) a ((natDigits n).map decChar)
      = a * 10 ^ (natDigits n).length + n := by
  induction n using Nat.strong_induction_on with
  | _ n ih =>
    intro a
    by_cases h : n < 10
    · rw [natDigits_of_lt h]
      simp [decChar_toNat h]
      omega
    · rw [natDigits_of_ge h]
      rw [List.map_append, List.foldl_append]
      rw [ih (n / 10) (Nat.div_lt_self (by omega) (by omega))]
      have h10 : n % 10 < 10 := Nat.mod_lt _ (by omega)
      simp [decChar_toNat h10, List.length_append]
      have := Nat.div_add_mod n 10
      ring_nf
      omega

theorem foldl_dec_zeros (k : Nat) : ∀ a,
    List.foldl (fun a c => 10 * a + (c.toNat - 48)) a (List.replicate k '0')
      = a * 10 ^ k := by
  induction k with
  | zero => simp
  | succ k ih =>
    intro a
    rw [List.replicate_succ, List.foldl_cons, ih]
    have : ('0' : Char).toNat - 48 = 0 := by decide
    rw [this]
    ring

theorem data_append (s t : String) : (s ++ t).data = s.data ++ t.data := rfl

/-- `zfill` on a non-empty all-digit-character string always yields the
zero-padded form (when no padding is needed the replicate is empty). -/
theorem zfill_digits (l : List Char) (w : Nat) (hne : l ≠ [])
    (hd : ∀ c ∈ l, ∃ d, d < 10 ∧ c = decChar d) :
    zfill ⟨l⟩ w = ⟨List.replicate (w - l.length) '0' ++ l⟩ := by
  have hlen : (String.mk l).length = l.length := rfl
  rw [zfill]
  by_cases hw : w ≤ (String.mk l).length
  · rw [if_pos hw]
    rw [hlen] at hw
    have : w - l.length = 0 := by omega
    rw [this, List.replicate_zero, List.nil_append]
  · rw [if_neg hw]
    cases l with
    | nil => exact absurd rfl hne
    | cons c cs =>
      rcases hd c (List.mem_cons_self _ _) with ⟨d, hd10, rfl⟩
      simp only [decChar_ne_sign hd10, if_false]
      rfl

theorem formatPin_eq_zfill (pin : Nat) :
    formatPin pin
      = zfill ⟨(natDigits pin).map decChar ++ [decChar (checksum pin)]⟩ 8 := by
  have hcs : checksum pin < 10 := checksum_lt_ten pin
  rw [formatPin, pyStrNat, pyStrNat, natDigits_of_lt hcs]
  rfl

/-- Structure of `formatPin pin` for `pin < 10⁷`: its character list is
`7 - L` zeros, the `L` digits of `pin`, then the check digit. -/
theorem formatPin_data (pin : Nat) (h : pin < 10000000) :
    (formatPin pin).data =
      (List.replicate (7 - (natDigits pin).length) '0'
        ++ (natDigits pin).map decChar) ++ [decChar (checksum pin)] := by
  have hcs : checksum pin < 10 := checksum_lt_ten pin
  rw [formatPin_eq_zfill]
  rw [zfill_digits _ 8 (by simp) ?digits]
  case digits =>
    intro c hc
    rcases List.mem_append.1 hc with hc | hc
    · rcases List.mem_map.1 hc with ⟨d, hd1, hd2⟩
      exact ⟨d, natDigits_all_lt pin d hd1, hd2.symm⟩
    · simp at hc
      exact ⟨checksum pin, hcs, hc⟩
  show List.replicate (8 - ((natDigits pin).map decChar ++ [decChar (checksum pin)]).length) '0'
      ++ ((natDigits pin).map decChar ++ [decChar (checksum pin)]) = _
  have hlen : ((natDigits pin).map decChar ++ [decChar (checksum pin)]).length
      = (natDigits pin).length + 1 := by simp
  rw [hlen]
  have : 8 - ((natDigits pin).length + 1) = 7 - (natDigits pin).length := by omega
  rw [this, List.append_assoc]

theorem formatPin_length (pin : Nat) (h : pin < 10000000) :
    (formatPin pin).length = 8 := by
  have hlen : (natDigits pin).length ≤ 7 := natDigits_length_le 7 (by omega) pin h
  have hpos : 1 ≤ (natDigits pin).length :=
    List.length_pos.2 (natDigits_ne_nil pin)
  show (formatPin pin).data.length = 8
  rw [formatPin_data pin h]
  simp
  omega

theorem formatPin_last (pin : Nat) (h : pin < 10000000) :
    (formatPin pin).data.getLast? = some (decChar (checksum pin)) := by
  rw [formatPin_data pin h]
  exact List.getLast?_concat _

theorem formatPin_take7 (pin : Nat) (h : pin < 10000000) :
    decList ((formatPin pin).data.take 7) = pin := by
  have hlen : (natDigits pin).length ≤ 7 := natDigits_length_le 7 (by omega) pin h
  rw [formatPin_data pin h]
  rw [List.take_left' (by simp; omega)]
  rw [decList, List.foldl_append, foldl_dec_zeros, foldl_dec_digits]
  simp

/-! ### Claims C3–C6 -/

/-- Counterexample to C3: a MAC string that reduces to only 10 hex digits
is parsed successfully by `_parseMAC` (and `_parseOUI`), with no error of
any kind — the code performs no length validation at all. -/
theorem C3_counterexample :
    parseMAC "AA:BB:CC:DD:EE" = some 0xAABBCCDDEE
      ∧ parseOUI "AA:BB:CC:DD:EE" = some 0xAABBCC := by
  constructor <;> rfl

theorem dropWhile_eq_self_of {p : Char → Bool} {cs : List Char}
    (h : ∀ c ∈ cs, p c = false) : cs.dropWhile p = cs := by
  cases cs with
  | nil => rfl
  | cons c t => simp [List.dropWhile_cons, h c (List.mem_cons_self _ _)]

theorem space_not_hex {c : Char} (h : pyIntSpace c = true) :
    isHexDigit c = false := by
  simp only [pyIntSpace, Bool.or_eq_true, decide_eq_true_eq] at h
  rcases h with ((((h | h) | h) | h) | h) | h <;> subst h <;> decide

theorem hex_ne {c : Char} (h : isHexDigit c = true) :
    c ≠ '+' ∧ c ≠ '_' ∧ c ≠ 'x' ∧ c ≠ 'X' := by
  refine ⟨?_, ?_, ?_, ?_⟩ <;> rintro rfl <;> exact absurd h (by decide)

theorem stripIntSpace_eq_self {cs : List Char}
    (hhex : cs.all isHexDigit = true) : stripIntSpace cs = cs := by
  rw [List.all_eq_true] at hhex
  have hns : ∀ c ∈ cs, pyIntSpace c = false := by
    intro c hc
    cases hsp : pyIntSpace c
    · rfl
    · exact absurd (hhex c hc) (by rw [space_not_hex hsp]; simp)
  rw [stripIntSpace, dropWhile_eq_self_of hns,
    dropWhile_eq_self_of (fun c hc => hns c (List.mem_reverse.1 hc)),
    List.reverse_reverse]

theorem dropSign_eq_self {cs : List Char}
    (hhex : cs.all isHexDigit = true) : dropSign cs = cs := by
  cases cs with
  | nil => rfl
  | cons c t =>
    rw [List.all_cons, Bool.and_eq_true] at hhex
    show (if c = '+' then t else c :: t) = c :: t
    rw [if_neg (hex_ne hhex.1).1]

theorem dropHexPrefix_eq_self {cs : List Char}
    (hhex : cs.all isHexDigit = true) : dropHexPrefix cs = cs := by
  match cs with
  | [] => rfl
  | [c] => rfl
  | c0 :: c1 :: t =>
    rw [List.all_cons, List.all_cons, Bool.and_eq_true, Bool.and_eq_true] at hhex
    show (if c0 = '0' ∧ (c1 = 'x' ∨ c1 = 'X') then _ else c0 :: c1 :: t)
      = c0 :: c1 :: t
    rw [if_neg]
    rintro ⟨-, hx⟩
    exact hx.elim (hex_ne hhex.2.1).2.2.1 (hex_ne hhex.2.1).2.2.2

theorem hexTail_of_all {cs : List Char}
    (hhex : cs.all isHexDigit = true) : hexTail cs = true := by
  induction cs with
  | nil => rfl
  | cons c t ih =>
    rw [List.all_cons, Bool.and_eq_true] at hhex
    rw [hexTail.eq_def]
    dsimp only
    rw [if_neg (hex_ne hhex.1).2.1, hhex.1, ih hhex.2]
    rfl

theorem hexBody_of_all {cs : List Char} (hne : cs ≠ [])
    (hhex : cs.all isHexDigit = true) : hexBody cs = true := by
  cases cs with
  | nil => exact absurd rfl hne
  | cons c t =>
    rw [List.all_cons, Bool.and_eq_true] at hhex
    rw [hexBody, hhex.1, hexTail_of_all hhex.2]
    rfl

theorem int16_allhex (s : String) (hne : s.data ≠ [])
    (hhex : s.data.all isHexDigit = true) :
    int16? s = some (s.data.foldl (fun a c => 16 * a + hexVal c) 0) := by
  have hself : intDigits16 s.data = s.data := by
    rw [intDigits16, stripIntSpace_eq_self hhex, dropSign_eq_self hhex,
      dropHexPrefix_eq_self hhex]
  have hfil : s.data.filter (· ≠ '_') = s.data := by
    rw [List.filter_eq_self]
    intro c hc
    rw [List.all_eq_true] at hhex
    exact decide_eq_true (hex_ne (hhex c hc)).2.1
  rw [int16?, hself, if_pos (hexBody_of_all hne hhex), hexValue, hfil]

/-- C3, amended: MAC parsing performs no digit-count validation.  It
succeeds on every string whose delimiter-stripped form is a non-empty
string of hex digits — also when that form has more or fewer than 12
digits — and `_parseOUI` likewise returns a partial OUI from fewer than 12
digits.  There is no distinct `MalformedAddress` error: when `int()` does
reject the stripped form (e.g. a non-hex letter, as in `"GG:HH"`), the
failure is a plain `ValueError`. -/
theorem C3_no_length_validation :
    (∀ s, (stripDelims s).data ≠ [] → (stripDelims s).data.all isHexDigit →
      ∃ m, parseMAC s = some m)
    ∧ parseMAC "AA:BB:CC:DD:EE:FF:00" = some 0xAABBCCDDEEFF00
    ∧ parseMAC "GG:HH" = none
    ∧ parseOUI "AA:BB" = some 0xAABB := by
  refine ⟨?_, rfl, rfl, rfl⟩
  intro s h1 h2
  rw [parseMAC, int16_allhex _ h1 h2]
  exact ⟨_, rfl⟩

theorem C3_no_length_validation_witness :
    ∃ m, parseMAC "AA:BB:CC:DD:EE" = some m :=
  C3_no_length_validation.1 "AA:BB:CC:DD:EE" (by decide) (by decide)

/-- C4: the checksum maps every base below 10⁷ to a digit 0..9 equal to
`(10 - sum % 10) % 10` for the 3,1-alternating digit sum; `checksum 0 = 0`;
and for every registered non-EMPTY algorithm and well-formed MAC,
`generate` returns an 8-character string ending in the check digit of the
raw value reduced modulo 10⁷. -/
theorem C4_checksum_generate :
    (∀ base, base < 10000000 →
      checksum base < 10 ∧ checksum base = (10 - specSum base % 10) % 10)
    ∧ checksum 0 = 0
    ∧ (∀ e ∈ algos, e.2.1 ≠ AlgoMode.empty → ∀ s m, parseMAC s = some m →
        generate e.1 s = .ok (formatPin (e.2.2 m % 10000000))
        ∧ (formatPin (e.2.2 m % 10000000)).length = 8
        ∧ (formatPin (e.2.2 m % 10000000)).data.getLast?
            = some (decChar (checksum (e.2.2 m % 10000000)))) := by
  refine ⟨fun base _ => ⟨checksum_lt_ten base, checksum_eq_spec base⟩,
    by rw [checksum, checksumAccum]; norm_num, ?_⟩
  intro e he hne s m hp
  have hlt : e.2.2 m % 10000000 < 10000000 := Nat.mod_lt _ (by norm_num)
  have hfmt := And.intro (formatPin_length _ hlt) (formatPin_last _ hlt)
  simp only [algos, List.mem_cons, List.not_mem_nil, or_false] at he
  rcases he with rfl | rfl | rfl | rfl | rfl | rfl | rfl | rfl | rfl | rfl |
    rfl | rfl | rfl | rfl | rfl | rfl | rfl | rfl | rfl | rfl |
    rfl | rfl | rfl | rfl | rfl | rfl | rfl | rfl | rfl | rfl <;>
    first
      | exact absurd rfl hne
      | exact ⟨by simp only [generate, hp]; rfl, hfmt.1, hfmt.2⟩

theorem C4_checksum_generate_witness :
    checksum 1234567 < 10
    ∧ generate "pin24" "00:90:4C:C1:AC:21"
        = .ok (formatPin (pin24 0x00904CC1AC21 % 10000000)) :=
  ⟨(C4_checksum_generate.1 1234567 (by norm_num)).1,
   (C4_checksum_generate.2.2 ("pin24", AlgoMode.mac, pin24)
      (List.mem_cons_self _ _) (by decide) "00:90:4C:C1:AC:21"
      0x00904CC1AC21 (by rfl)).1⟩

/-- C5: for every well-formed MAC, the numeric value of the first 7
characters of the `pin24` PIN, modulo 10⁷, equals `(mac & 0xFFFFFF)`
modulo 10⁷. -/
theorem C5_pin24_roundtrip : ∀ s m, parseMAC s = some m →
    ∃ out, generate "pin24" s = .ok out
      ∧ decList (out.data.take 7) % 10000000 = (m &&& 0xFFFFFF) % 10000000 := by
  intro s m hp
  have hlt : pin24 m % 10000000 < 10000000 := Nat.mod_lt _ (by norm_num)
  refine ⟨formatPin (pin24 m % 10000000), by simp only [generate, hp]; rfl, ?_⟩
  rw [formatPin_take7 _ hlt, pin24]
  omega

theorem C5_pin24_roundtrip_witness :
    ∃ out, generate "pin24" "00:90:4C:C1:AC:21" = .ok out
      ∧ decList (out.data.take 7) % 10000000 = (0x00904CC1AC21 &&& 0xFFFFFF) % 10000000 :=
  C5_pin24_roundtrip "00:90:4C:C1:AC:21" 0x00904CC1AC21 (by rfl)

theorem pinDLink_eq_spec (m : Nat) : pinDLink m = specDLinkPin m := by
  have hb : ∀ x : Nat,
      x <<< 4 + x <<< 8 + x <<< 12 + x <<< 16 + x <<< 20 = x * 0x111110 := by
    intro x
    simp [Nat.shiftLeft_eq]
    ring
  rw [pinDLink, specDLinkPin, hb]

/-- C6: the D-Link generator computes exactly the spec's vendor-A formula
(low nibble broadcast into nibble positions 1..5 expressed as
multiplication by `0x111110`), and the `+1` variant is that formula on
`m + 1`. -/
theorem C6_dlink : ∀ m, m < 2 ^ 48 →
    pinDLink m = specDLinkPin m ∧ pinDLink1 m = specDLinkPin (m + 1) :=
  fun m _ => ⟨pinDLink_eq_spec m, pinDLink_eq_spec (m + 1)⟩

theorem C6_dlink_witness :
    pinDLink 0x0013468C3A5B = specDLinkPin 0x0013468C3A5B
    ∧ pinDLink1 0x0013468C3A5B = specDLinkPin (0x0013468C3A5B + 1) :=
  C6_dlink 0x0013468C3A5B (by norm_num)

end OneShot
